import Mathlib

/-!
# fdfs_client: the orchestration client of `client.go`

A shallow embedding of `client.go` (package `fdfs_client`) and the properties
of its tracker-configuration parser, its storage-pool slot and its nine public
operations.

Go strings are modelled by their sequence of Unicode characters (valid UTF-8
text). Go `int` is the 64-bit signed integer. The standard-library functions
`strings.Split`, `strings.TrimSpace` and `strconv.Atoi` are modelled after the
Go standard library.

The collaborators that `client.go` calls but does not define (configuration
reader, local file check, identifier decoder, tracker client, pool dialer,
storage client) are parameters, gathered in `Env`. Every call the client makes
to them is recorded in the history of a `World`, which is threaded through the
code; a pool instance is identified by the number it got when it was created.
-/

namespace Fdfs

/-! ## Go standard library -/

/-- Go `unicode.IsSpace`: the characters `strings.TrimSpace` removes. -/
def isSpace (c : Char) : Bool :=
  let n := c.toNat
  n == 9 || n == 10 || n == 11 || n == 12 || n == 13 || n == 32 ||
  n == 0x85 || n == 0xA0 || n == 0x1680 || (0x2000 ≤ n && n ≤ 0x200a) ||
  n == 0x2028 || n == 0x2029 || n == 0x202f || n == 0x205f || n == 0x3000

/-- Go `strings.TrimSpace`: leading and trailing white space removed. -/
def TrimSpace (s : List Char) : List Char :=
  ((s.dropWhile isSpace).reverse.dropWhile isSpace).reverse

/-- Go `strings.Split(s, sep)` for a one-character separator: the pieces of `s`
between the occurrences of `sep`; the result always has at least one piece. -/
def Split (s : List Char) (sep : Char) : List (List Char) :=
  match s with
  | [] => [[]]
  | c :: cs =>
    if c = sep then [] :: Split cs sep
    else
      match Split cs sep with
      | [] => [[c]]
      | p :: ps => (c :: p) :: ps

/-- The two error kinds of `strconv.NumError`. -/
inductive NumError where
  | ErrSyntax
  | ErrRange
deriving DecidableEq, Repr

/-- ASCII decimal digit test, `'0' <= c && c <= '9'`. -/
def isDigit (c : Char) : Bool := 48 ≤ c.toNat && c.toNat ≤ 57

/-- Largest `uint64`. -/
def maxUint64 : Nat := 2 ^ 64 - 1

/-- The digit loop of `strconv.ParseUint(s, 10, 64)`, started with accumulator
`n`: a character that is not a decimal digit ends it with `(0, ErrSyntax)`, an
overflow of 64 bits ends it with `(maxUint64, ErrRange)`; both end the loop at
once, so whichever comes first in the text decides. -/
def parseUintLoop (n : Nat) : List Char → Nat × Option NumError
  | [] => (n, none)
  | c :: cs =>
    if isDigit c then
      let d := c.toNat - 48
      if n ≥ maxUint64 / 10 + 1 then (maxUint64, some NumError.ErrRange)
      else
        let n1 := n * 10 + d
        if n1 > maxUint64 then (maxUint64, some NumError.ErrRange)
        else parseUintLoop n1 cs
    else (0, some NumError.ErrSyntax)

/-- Go `strconv.ParseUint(s, 10, 64)`. -/
def ParseUint (s : List Char) : Nat × Option NumError :=
  match s with
  | [] => (0, some NumError.ErrSyntax)
  | _ => parseUintLoop 0 s

/-- Go `strconv.ParseInt(s, 10, 0)` with 64-bit `int`: optional sign, then
`ParseUint`; a syntax error gives 0, a value outside the range of `int` gives
the nearest bound together with `ErrRange`. -/
def ParseInt (s : List Char) : Int × Option NumError :=
  match s with
  | [] => (0, some NumError.ErrSyntax)
  | c :: cs =>
    let neg := c = '-'
    let body := if c = '+' ∨ c = '-' then cs else s
    match ParseUint body with
    | (_, some NumError.ErrSyntax) => (0, some NumError.ErrSyntax)
    | (un, _) =>
      if ¬ neg ∧ un ≥ 2 ^ 63 then ((2 : Int) ^ 63 - 1, some NumError.ErrRange)
      else if neg ∧ un > 2 ^ 63 then (-(2 : Int) ^ 63, some NumError.ErrRange)
      else (if neg then -(un : Int) else (un : Int), none)

/-- Go `strconv.Atoi`, which is `ParseInt(s, 10, 0)` converted to `int`. -/
def Atoi (s : List Char) : Int × Option NumError := ParseInt s

/-! ## Data model -/

/-- A Go `error` value. Values handed out by a collaborator keep their identity
(`origin`); `errorsNew msg` is the fresh value built by `errors.New(msg)`. -/
inductive GoError where
  | collab (origin : Nat) (msg : String)
  | errorsNew (msg : String)
deriving DecidableEq, Repr

/-- Go `err.Error()`: the message of an error. -/
def GoError.Error : GoError → String
  | GoError.collab _ msg => msg
  | GoError.errorsNew msg => msg

/-- The `Tracker` struct of `client.go`. -/
structure Tracker where
  HostList : List String
  Port : Int
deriving DecidableEq, Repr

/-- Modelled from the spec: the `ConnectionPool` type, which `client.go` uses
but does not declare. A pool is an instance (`id` stands for its address)
bound to a fixed (host set, port, min-idle, max-idle) tuple. -/
structure ConnectionPool where
  id : Nat
  hosts : List String
  port : Int
  minConns : Nat
  maxConns : Nat
deriving DecidableEq, Repr

/-- The storage endpoint a tracker query answers with; `client.go` reads its
fields `ipAddr` and `port`. -/
structure StorageServer where
  ipAddr : String
  port : Int
deriving DecidableEq, Repr

/-- The four tracker queries `client.go` issues, with their arguments. -/
inductive TrackerQuery where
  | StorWithoutGroup
  | StorWithGroup (groupName : String)
  | Update (groupName remoteFilename : String)
  | Fetch (groupName remoteFilename : String)
deriving DecidableEq, Repr

/-- The nine storage operations `client.go` dispatches, with the arguments it
passes after the tracker client and the storage endpoint. -/
inductive StorageOp where
  | UploadByFilename (filename : String)
  | UploadByBuffer (filebuffer : List Nat) (fileExtName : String)
  | UploadSlaveByFilename (filename prefixName remoteFilename : String)
  | UploadSlaveByBuffer (filebuffer : List Nat) (remoteFilename fileExtName : String)
  | UploadAppenderByFilename (filename : String)
  | UploadAppenderByBuffer (filebuffer : List Nat) (fileExtName : String)
  | DeleteFile (remoteFilename : String)
  | DownloadToFile (localFilename : String) (offset downloadSize : Int) (remoteFilename : String)
  | DownloadToBuffer (fileBuffer : List Nat) (offset downloadSize : Int) (remoteFilename : String)
deriving DecidableEq, Repr

/-- What the client does to its collaborators, in the order it happens. -/
inductive Event where
  | trackerQuery (pool : Option ConnectionPool) (q : TrackerQuery)
  | poolCreated (pool : ConnectionPool)
  | poolFailed (hosts : List String) (port : Int) (minConns maxConns : Nat)
  | poolClosed (pool : ConnectionPool)
  | storageOp (pool : Option ConnectionPool) (trackerPool : Option ConnectionPool)
      (storeServ : StorageServer) (op : StorageOp)
deriving DecidableEq, Repr

/-- The world outside the client: the history of collaborator calls and the
number of pool instances allocated so far. -/
structure World where
  events : List Event
  nextPool : Nat
deriving DecidableEq, Repr

/-- Append one event to the history. -/
def World.log (w : World) (e : Event) : World :=
  ⟨w.events ++ [e], w.nextPool⟩

/-- The parsed configuration file returned by `FdfsConfigParser.Read`; only its
`RawString(section, key)` lookup is used, which returns a value and an error. -/
structure ConfigFile where
  RawString : String → String → String × Option GoError

/-- The collaborators of `client.go` that live outside it, as parameters: the
configuration reader, the local file check, the file-identifier decoder, the
tracker tier, the pool dialer and the storage tier. Each answer may depend on
the history so far. `U` and `D` are the upload and download response types. -/
structure Env (U D : Type) where
  Read : String → Except GoError ConfigFile
  fdfsCheckFile : World → String → Option GoError
  splitRemoteFileId : String → List String × Option GoError
  tracker : World → Option ConnectionPool → TrackerQuery → Except GoError StorageServer
  dial : World → List String → Int → Nat → Nat → Option GoError
  upload : World → Option ConnectionPool → StorageServer → StorageOp → Option U × Option GoError
  delete : World → Option ConnectionPool → StorageServer → StorageOp → Option GoError
  download : World → Option ConnectionPool → StorageServer → StorageOp → Option D × Option GoError

/-- The `FdfsClient` struct of `client.go`; the two pools are pointers that may
be nil. -/
structure FdfsClient where
  tracker : Tracker
  trackerPool : Option ConnectionPool
  storagePool : Option ConnectionPool
  timeout : Int
deriving DecidableEq, Repr

/-- The `TrackerClient` struct literal `&TrackerClient{this.trackerPool}`. -/
structure TrackerClient where
  pool : Option ConnectionPool
deriving DecidableEq, Repr

/-- The `StorageClient` struct literal `&StorageClient{storagePool}`; the pool
pointer may be nil. -/
structure StorageClient where
  pool : Option ConnectionPool
deriving DecidableEq, Repr

/-- Result of running a piece of Go code: it returns a value in a new world, it
panics (index out of range), or it ends the process (`logger.Fatalf`). -/
inductive Run (α : Type) where
  | ret (val : α) (w : World)
  | panic (w : World)
  | exited (msg : String) (w : World)
deriving Repr

/-! ## Tracker configuration: `getTrackerConf` -/

/-- One iteration of the `for _, tr := range trackerList` loop of
`getTrackerConf`; the state is `(trackerIpList, trackerPort)`. `parts[0]`
exists because `Split` never returns an empty list. -/
def trackerLoopBody (st : List String × List Char) (tr : List Char) :
    List String × List Char :=
  let tr := TrimSpace tr
  let parts := Split tr ':'
  let trackerIp := parts.headD []
  let trackerPort := if parts.length = 2 then parts.getD 1 [] else st.2
  let trackerIpList := if trackerIp ≠ [] then st.1 ++ [String.mk trackerIp] else st.1
  (trackerIpList, trackerPort)

/-- The part of `getTrackerConf` after the configuration was read: from the
text of `tracker_server` to the returned `(*Tracker, error)` pair. The error
of `strconv.Atoi` is assigned and never read. -/
def trackerOfString (trackerListString : String) : Option Tracker × Option GoError :=
  let trackerList := Split trackerListString.toList ','
  let st := trackerList.foldl trackerLoopBody ([], "22122".toList)
  let tp := (Atoi st.2).1
  (some ⟨st.1, tp⟩, none)

/-- The function `getTrackerConf(confPath)`. A failed read ends the process in
`logger.Fatalf`; the error of `RawString` is discarded. -/
def getTrackerConf {U D : Type} (env : Env U D) (confPath : String) (w : World) :
    Run (Option Tracker × Option GoError) :=
  match env.Read confPath with
  | Except.error err => Run.exited ("Read conf error :" ++ err.Error) w
  | Except.ok cf =>
    let trackerListString := (cf.RawString "DEFAULT" "tracker_server").1
    Run.ret (trackerOfString trackerListString) w

/-! ## Collaborator calls -/

/-- Modelled from the spec: `NewConnectionPool(hosts, port, minConns, maxConns)`,
declared outside `client.go`. It either fails with the dialer error or returns
a new pool instance bound to its four arguments. -/
def NewConnectionPool {U D : Type} (env : Env U D) (hosts : List String) (port : Int)
    (minConns maxConns : Nat) (w : World) : Run (Option ConnectionPool × Option GoError) :=
  match env.dial w hosts port minConns maxConns with
  | some err => Run.ret (none, some err) (w.log (Event.poolFailed hosts port minConns maxConns))
  | none =>
    let pool : ConnectionPool := ⟨w.nextPool, hosts, port, minConns, maxConns⟩
    Run.ret (some pool, none) ⟨w.events ++ [Event.poolCreated pool], w.nextPool + 1⟩

/-- Modelled from the spec: `(*ConnectionPool).Close()`, the explicit close of
the whole pool; every call is recorded. -/
def ConnectionPool.Close (pool : ConnectionPool) (w : World) : World :=
  w.log (Event.poolClosed pool)

/-- A tracker query over the tracker client `tc`: one of
`trackerQueryStorageStorWithoutGroup`, `trackerQueryStorageStorWithGroup`,
`trackerQueryStorageUpdate`, `trackerQueryStorageFetch`. -/
def TrackerClient.query {U D : Type} (env : Env U D) (tc : TrackerClient) (q : TrackerQuery)
    (w : World) : Except GoError StorageServer × World :=
  (env.tracker w tc.pool q, w.log (Event.trackerQuery tc.pool q))

/-- A storage upload over the storage client `store`: one of the six
`storageUpload...` methods, named by `op`. -/
def StorageClient.storageUpload {U D : Type} (env : Env U D) (store : StorageClient)
    (tc : TrackerClient) (storeServ : StorageServer) (op : StorageOp) (w : World) :
    Run (Option U × Option GoError) :=
  Run.ret (env.upload w store.pool storeServ op)
    (w.log (Event.storageOp store.pool tc.pool storeServ op))

/-- The storage method `storageDeleteFile`. -/
def StorageClient.storageDeleteFile {U D : Type} (env : Env U D) (store : StorageClient)
    (tc : TrackerClient) (storeServ : StorageServer) (remoteFilename : String) (w : World) :
    Run (Option GoError) :=
  Run.ret (env.delete w store.pool storeServ (StorageOp.DeleteFile remoteFilename))
    (w.log (Event.storageOp store.pool tc.pool storeServ (StorageOp.DeleteFile remoteFilename)))

/-- A storage download over the storage client `store`: `storageDownloadToFile`
or `storageDownloadToBuffer`, named by `op`. -/
def StorageClient.storageDownload {U D : Type} (env : Env U D) (store : StorageClient)
    (tc : TrackerClient) (storeServ : StorageServer) (op : StorageOp) (w : World) :
    Run (Option D × Option GoError) :=
  Run.ret (env.download w store.pool storeServ op)
    (w.log (Event.storageOp store.pool tc.pool storeServ op))

/-! ## The client: construction and the storage-pool slot -/

/-- The constructor `NewFdfsClient(confPath)`. -/
def NewFdfsClient {U D : Type} (env : Env U D) (confPath : String) (w : World) :
    Run (Option FdfsClient × Option GoError) :=
  match getTrackerConf env confPath w with
  | Run.panic w1 => Run.panic w1
  | Run.exited msg w1 => Run.exited msg w1
  | Run.ret (_, some err) w1 => Run.ret (none, some err) w1
  | Run.ret (none, none) w1 => Run.panic w1
  | Run.ret (some tracker, none) w1 =>
    match NewConnectionPool env tracker.HostList tracker.Port 10 150 w1 with
    | Run.panic w2 => Run.panic w2
    | Run.exited msg w2 => Run.exited msg w2
    | Run.ret (_, some err) w2 => Run.ret (none, some err) w2
    | Run.ret (trackerPool, none) w2 =>
      Run.ret (some ⟨tracker, trackerPool, none, 0⟩, none) w2

/-- The method `getStoragePool(ipAddr, port)`. No statement of it (or of any
other function of `client.go`) assigns `this.storagePool`, so the receiver is
read only. `this.storagePool.hosts[0]` panics on an empty host list. -/
def getStoragePool {U D : Type} (env : Env U D) (this : FdfsClient) (ipAddr : String)
    (port : Int) (w : World) : Run (Option ConnectionPool × Option GoError) :=
  let hosts := [ipAddr]
  match this.storagePool with
  | some storagePool =>
    match storagePool.hosts with
    | [] => Run.panic w
    | h0 :: _ =>
      if ipAddr = h0 then Run.ret (some storagePool, none) w
      else NewConnectionPool env hosts port 10 150 (storagePool.Close w)
  | none => NewConnectionPool env hosts port 10 150 w

/-! ## The nine public operations

In each of them the error returned by `getStoragePool` is assigned to `err` and
never read; the returned pool pointer (nil when creation failed) goes into the
`StorageClient`. For the identifier-based operations the guard
`if err != nil || len(tmp) != 2 { return nil, err }` is passed exactly when the
decoder returned a two-element list and a nil error. -/

/-- The method `UploadByFilename(filename)`. -/
def UploadByFilename {U D : Type} (env : Env U D) (this : FdfsClient) (filename : String)
    (w : World) : Run (Option U × Option GoError) :=
  match env.fdfsCheckFile w filename with
  | some err => Run.ret (none, some (GoError.errorsNew (err.Error ++ "(uploading)"))) w
  | none =>
    let tc : TrackerClient := ⟨this.trackerPool⟩
    match tc.query env TrackerQuery.StorWithoutGroup w with
    | (Except.error err, w1) => Run.ret (none, some err) w1
    | (Except.ok storeServ, w1) =>
      match getStoragePool env this storeServ.ipAddr storeServ.port w1 with
      | Run.panic w2 => Run.panic w2
      | Run.exited msg w2 => Run.exited msg w2
      | Run.ret (storagePool, _) w2 =>
        let store : StorageClient := ⟨storagePool⟩
        store.storageUpload env tc storeServ (StorageOp.UploadByFilename filename) w2

/-- The method `UploadByBuffer(filebuffer, fileExtName)`. -/
def UploadByBuffer {U D : Type} (env : Env U D) (this : FdfsClient) (filebuffer : List Nat)
    (fileExtName : String) (w : World) : Run (Option U × Option GoError) :=
  let tc : TrackerClient := ⟨this.trackerPool⟩
  match tc.query env TrackerQuery.StorWithoutGroup w with
  | (Except.error err, w1) => Run.ret (none, some err) w1
  | (Except.ok storeServ, w1) =>
    match getStoragePool env this storeServ.ipAddr storeServ.port w1 with
    | Run.panic w2 => Run.panic w2
    | Run.exited msg w2 => Run.exited msg w2
    | Run.ret (storagePool, _) w2 =>
      let store : StorageClient := ⟨storagePool⟩
      store.storageUpload env tc storeServ (StorageOp.UploadByBuffer filebuffer fileExtName) w2

/-- The method `UploadSlaveByFilename(filename, remoteFileId, prefixName)`. -/
def UploadSlaveByFilename {U D : Type} (env : Env U D) (this : FdfsClient)
    (filename remoteFileId prefixName : String) (w : World) :
    Run (Option U × Option GoError) :=
  match env.fdfsCheckFile w filename with
  | some err => Run.ret (none, some (GoError.errorsNew (err.Error ++ "(uploading)"))) w
  | none =>
    match env.splitRemoteFileId remoteFileId with
    | ([groupName, remoteFilename], none) =>
      let tc : TrackerClient := ⟨this.trackerPool⟩
      match tc.query env (TrackerQuery.StorWithGroup groupName) w with
      | (Except.error err, w1) => Run.ret (none, some err) w1
      | (Except.ok storeServ, w1) =>
        match getStoragePool env this storeServ.ipAddr storeServ.port w1 with
        | Run.panic w2 => Run.panic w2
        | Run.exited msg w2 => Run.exited msg w2
        | Run.ret (storagePool, _) w2 =>
          let store : StorageClient := ⟨storagePool⟩
          store.storageUpload env tc storeServ
            (StorageOp.UploadSlaveByFilename filename prefixName remoteFilename) w2
    | (_, err) => Run.ret (none, err) w

/-- The method `UploadSlaveByBuffer(filebuffer, remoteFileId, fileExtName)`. -/
def UploadSlaveByBuffer {U D : Type} (env : Env U D) (this : FdfsClient)
    (filebuffer : List Nat) (remoteFileId fileExtName : String) (w : World) :
    Run (Option U × Option GoError) :=
  match env.splitRemoteFileId remoteFileId with
  | ([groupName, remoteFilename], none) =>
    let tc : TrackerClient := ⟨this.trackerPool⟩
    match tc.query env (TrackerQuery.StorWithGroup groupName) w with
    | (Except.error err, w1) => Run.ret (none, some err) w1
    | (Except.ok storeServ, w1) =>
      match getStoragePool env this storeServ.ipAddr storeServ.port w1 with
      | Run.panic w2 => Run.panic w2
      | Run.exited msg w2 => Run.exited msg w2
      | Run.ret (storagePool, _) w2 =>
        let store : StorageClient := ⟨storagePool⟩
        store.storageUpload env tc storeServ
          (StorageOp.UploadSlaveByBuffer filebuffer remoteFilename fileExtName) w2
  | (_, err) => Run.ret (none, err) w

/-- The method `UploadAppenderByFilename(filename)`. -/
def UploadAppenderByFilename {U D : Type} (env : Env U D) (this : FdfsClient)
    (filename : String) (w : World) : Run (Option U × Option GoError) :=
  match env.fdfsCheckFile w filename with
  | some err => Run.ret (none, some (GoError.errorsNew (err.Error ++ "(uploading)"))) w
  | none =>
    let tc : TrackerClient := ⟨this.trackerPool⟩
    match tc.query env TrackerQuery.StorWithoutGroup w with
    | (Except.error err, w1) => Run.ret (none, some err) w1
    | (Except.ok storeServ, w1) =>
      match getStoragePool env this storeServ.ipAddr storeServ.port w1 with
      | Run.panic w2 => Run.panic w2
      | Run.exited msg w2 => Run.exited msg w2
      | Run.ret (storagePool, _) w2 =>
        let store : StorageClient := ⟨storagePool⟩
        store.storageUpload env tc storeServ (StorageOp.UploadAppenderByFilename filename) w2

/-- The method `UploadAppenderByBuffer(filebuffer, fileExtName)`. -/
def UploadAppenderByBuffer {U D : Type} (env : Env U D) (this : FdfsClient)
    (filebuffer : List Nat) (fileExtName : String) (w : World) :
    Run (Option U × Option GoError) :=
  let tc : TrackerClient := ⟨this.trackerPool⟩
  match tc.query env TrackerQuery.StorWithoutGroup w with
  | (Except.error err, w1) => Run.ret (none, some err) w1
  | (Except.ok storeServ, w1) =>
    match getStoragePool env this storeServ.ipAddr storeServ.port w1 with
    | Run.panic w2 => Run.panic w2
    | Run.exited msg w2 => Run.exited msg w2
    | Run.ret (storagePool, _) w2 =>
      let store : StorageClient := ⟨storagePool⟩
      store.storageUpload env tc storeServ
        (StorageOp.UploadAppenderByBuffer filebuffer fileExtName) w2

/-- The method `DeleteFile(remoteFileId)`. -/
def DeleteFile {U D : Type} (env : Env U D) (this : FdfsClient) (remoteFileId : String)
    (w : World) : Run (Option GoError) :=
  match env.splitRemoteFileId remoteFileId with
  | ([groupName, remoteFilename], none) =>
    let tc : TrackerClient := ⟨this.trackerPool⟩
    match tc.query env (TrackerQuery.Update groupName remoteFilename) w with
    | (Except.error err, w1) => Run.ret (some err) w1
    | (Except.ok storeServ, w1) =>
      match getStoragePool env this storeServ.ipAddr storeServ.port w1 with
      | Run.panic w2 => Run.panic w2
      | Run.exited msg w2 => Run.exited msg w2
      | Run.ret (storagePool, _) w2 =>
        let store : StorageClient := ⟨storagePool⟩
        store.storageDeleteFile env tc storeServ remoteFilename w2
  | (_, err) => Run.ret err w

/-- The method `DownloadToFile(localFilename, remoteFileId, offset, downloadSize)`. -/
def DownloadToFile {U D : Type} (env : Env U D) (this : FdfsClient)
    (localFilename remoteFileId : String) (offset downloadSize : Int) (w : World) :
    Run (Option D × Option GoError) :=
  match env.splitRemoteFileId remoteFileId with
  | ([groupName, remoteFilename], none) =>
    let tc : TrackerClient := ⟨this.trackerPool⟩
    match tc.query env (TrackerQuery.Fetch groupName remoteFilename) w with
    | (Except.error err, w1) => Run.ret (none, some err) w1
    | (Except.ok storeServ, w1) =>
      match getStoragePool env this storeServ.ipAddr storeServ.port w1 with
      | Run.panic w2 => Run.panic w2
      | Run.exited msg w2 => Run.exited msg w2
      | Run.ret (storagePool, _) w2 =>
        let store : StorageClient := ⟨storagePool⟩
        store.storageDownload env tc storeServ
          (StorageOp.DownloadToFile localFilename offset downloadSize remoteFilename) w2
  | (_, err) => Run.ret (none, err) w

/-- The method `DownloadToBuffer(remoteFileId, offset, downloadSize)`; the
buffer handed to the storage client is the nil slice `fileBuffer`. -/
def DownloadToBuffer {U D : Type} (env : Env U D) (this : FdfsClient)
    (remoteFileId : String) (offset downloadSize : Int) (w : World) :
    Run (Option D × Option GoError) :=
  match env.splitRemoteFileId remoteFileId with
  | ([groupName, remoteFilename], none) =>
    let tc : TrackerClient := ⟨this.trackerPool⟩
    match tc.query env (TrackerQuery.Fetch groupName remoteFilename) w with
    | (Except.error err, w1) => Run.ret (none, some err) w1
    | (Except.ok storeServ, w1) =>
      match getStoragePool env this storeServ.ipAddr storeServ.port w1 with
      | Run.panic w2 => Run.panic w2
      | Run.exited msg w2 => Run.exited msg w2
      | Run.ret (storagePool, _) w2 =>
        let store : StorageClient := ⟨storagePool⟩
        let fileBuffer : List Nat := []
        store.storageDownload env tc storeServ
          (StorageOp.DownloadToBuffer fileBuffer offset downloadSize remoteFilename) w2
  | (_, err) => Run.ret (none, err) w

/-! ## Observations on the history -/

/-- The world a run ends in. -/
def Run.world {α : Type} : Run α → World
  | Run.ret _ w => w
  | Run.panic w => w
  | Run.exited _ w => w

/-- The tracker queries issued so far, in order. -/
def World.trackerQueries (w : World) : List TrackerQuery :=
  w.events.filterMap fun e =>
    match e with
    | Event.trackerQuery _ q => some q
    | _ => none

/-- The storage operations dispatched so far, in order, each with the endpoint
it was given. -/
def World.storageOps (w : World) : List (StorageServer × StorageOp) :=
  w.events.filterMap fun e =>
    match e with
    | Event.storageOp _ _ storeServ op => some (storeServ, op)
    | _ => none

/-- The pools created so far, in order. -/
def World.created (w : World) : List ConnectionPool :=
  w.events.filterMap fun e =>
    match e with
    | Event.poolCreated pool => some pool
    | _ => none

/-- How many times `Close()` was called on `pool`. -/
def World.closeCount (w : World) (pool : ConnectionPool) : Nat :=
  w.events.count (Event.poolClosed pool)

/-- The pools that were created and never closed. -/
def World.openPools (w : World) : List ConnectionPool :=
  w.created.filter fun pool => w.closeCount pool = 0

/-- The open pools other than the tracker pool of the client: its live storage
pools. -/
def FdfsClient.liveStoragePools (this : FdfsClient) (w : World) : List ConnectionPool :=
  w.openPools.filter fun pool => some pool ≠ this.trackerPool

/-- The unguarded index `this.storagePool.hosts[0]` is in range: the slot is
nil or its pool has a first host. -/
def FdfsClient.slotIndexable (this : FdfsClient) : Bool :=
  match this.storagePool with
  | some pool => !pool.hosts.isEmpty
  | none => true

/-! ## Concrete collaborators used to evaluate the code -/

/-- A configuration file whose `tracker_server` is `value`. -/
def confWith (value : String) : ConfigFile :=
  ⟨fun _ _ => (value, none)⟩

/-- Collaborators that always succeed: the tracker lists one host
`10.0.0.1:22122`, every tracker query answers `storeServ`, every dial
succeeds, the decoder answers `decoded`. -/
def envWith (storeServ : StorageServer) (decoded : List String × Option GoError)
    (dialErr : Option GoError) : Env Unit Unit where
  Read := fun _ => Except.ok (confWith "10.0.0.1:22122")
  fdfsCheckFile := fun _ _ => none
  splitRemoteFileId := fun _ => decoded
  tracker := fun _ _ _ => Except.ok storeServ
  dial := fun _ _ _ _ _ => dialErr
  upload := fun _ _ _ _ => (some (), none)
  delete := fun _ _ _ _ => none
  download := fun _ _ _ _ => (some (), none)

/-- The storage endpoint `10.0.0.7:23000`. -/
def storeA : StorageServer := ⟨"10.0.0.7", 23000⟩

/-- The all-succeeding collaborators with a decoder that answers
`["group1", "file1"]`. -/
def envOk : Env Unit Unit := envWith storeA (["group1", "file1"], none) none

/-- The tracker pool `NewFdfsClient` gets from `envOk` in the empty world. -/
def trackerPool0 : ConnectionPool := ⟨0, ["10.0.0.1"], 22122, 10, 150⟩

/-- The client `NewFdfsClient` builds from `envOk` in the empty world. -/
def freshClient : FdfsClient := ⟨⟨["10.0.0.1"], 22122⟩, some trackerPool0, none, 0⟩

/-- The world right after that construction. -/
def world0 : World := ⟨[Event.poolCreated trackerPool0], 1⟩

/-- The all-succeeding collaborators, except that the configuration file holds
`tracker_server = value`. -/
def envConf (value : String) : Env Unit Unit :=
  { envOk with Read := fun _ => Except.ok (confWith value) }

/-- The error of a missing local file. -/
def errNoFile : GoError := GoError.collab 1 "stat /tmp/missing: no such file or directory"

/-- Collaborators whose local file check fails with `errNoFile`. -/
def envNoFile : Env Unit Unit :=
  { envOk with fdfsCheckFile := fun _ _ => some errNoFile }

/-- The error of an unreachable tracker. -/
def errTracker : GoError := GoError.collab 2 "tracker: connection refused"

/-- Collaborators whose tracker queries fail with `errTracker`. -/
def envTrackerDown : Env Unit Unit :=
  { envOk with tracker := fun _ _ _ => Except.error errTracker }

/-- The error of a storage node that cannot be dialled. -/
def errDial : GoError := GoError.collab 3 "dial tcp 10.0.0.7:23000: connection refused"

/-- Collaborators whose pool creation fails with `errDial`. -/
def envDialDown : Env Unit Unit := envWith storeA (["group1", "file1"], none) (some errDial)

/-- Modelled from the spec: the contract of the identifier decoder
`splitRemoteFileId`, which is declared outside `client.go`: decoding fails with
an error whenever it does not yield exactly two parts. -/
def DecoderContract (decode : String → List String × Option GoError) : Prop :=
  ∀ fileId, (decode fileId).1.length ≠ 2 → (decode fileId).2 ≠ none

/-- The error of an identifier that does not decode. -/
def errIdentifier : GoError := GoError.collab 4 "error remoteFileId"

/-- Collaborators whose decoder accepts `group1:file1` and rejects every other
identifier with `errIdentifier`. -/
def envDecoder : Env Unit Unit :=
  { envOk with
    splitRemoteFileId := fun fileId =>
      if fileId = "group1:file1" then (["group1", "file1"], none) else ([], some errIdentifier) }

/-- The first storage pool created after `world0`. -/
def pool1 : ConnectionPool := ⟨1, ["10.0.0.7"], 23000, 10, 150⟩

/-- The second storage pool created after `world0`. -/
def pool2 : ConnectionPool := ⟨2, ["10.0.0.7"], 23000, 10, 150⟩

/-- A run of an operation is routed by query `q` and storage operation `op`
from world `w`, given the tracker answer `answer`: the operation returns, it
issued exactly the tracker query `q`, and it dispatched exactly the storage
operation `op` with the answered endpoint when there was one, none otherwise. -/
def Routed {α : Type} (r : Run α) (w : World) (q : TrackerQuery)
    (answer : Except GoError StorageServer) (op : StorageOp) : Prop :=
  (∃ v w1, r = Run.ret v w1) ∧
  r.world.trackerQueries = w.trackerQueries ++ [q] ∧
  r.world.storageOps = w.storageOps ++
    (match answer with
     | Except.ok storeServ => [(storeServ, op)]
     | Except.error _ => [])

/-! ## The well-formed `tracker_server` values of the specification -/

/-- An entry of a `tracker_server` list as the specification words it: a host,
optionally followed by `:` and a port, with white space around the entry. -/
structure ConfEntry where
  lead : List Char
  host : List Char
  port : Option (List Char)
  trail : List Char
deriving DecidableEq, Repr

/-- The entry without its surrounding white space: `host` or `host:port`. -/
def ConfEntry.body (e : ConfEntry) : List Char :=
  match e.port with
  | none => e.host
  | some p => e.host ++ ':' :: p

/-- The text of an entry. -/
def ConfEntry.text (e : ConfEntry) : List Char :=
  e.lead ++ e.body ++ e.trail

/-- The number a string of decimal digits denotes. -/
def decimalValue (ds : List Char) : Nat :=
  ds.foldl (fun n c => n * 10 + (c.toNat - 48)) 0

/-- The first and the last character of `s`, if any, are not white space. -/
def noOuterSpace (s : List Char) : Bool :=
  (match s.head? with
   | some c => !isSpace c
   | none => true) &&
  (match s.getLast? with
   | some c => !isSpace c
   | none => true)

/-- An entry is well formed when the surrounding text is white space, the host
has no comma, no colon and no white space at either end, and the port, if
present, is a non-empty string of decimal digits denoting a Go `int`. -/
def ConfEntry.wellFormed (e : ConfEntry) : Bool :=
  e.lead.all isSpace && e.trail.all isSpace &&
  e.host.all (fun c => c != ',' && c != ':') && noOuterSpace e.host &&
  (match e.port with
   | none => true
   | some p => !p.isEmpty && p.all isDigit && decimalValue p < 2 ^ 63)

/-- The `tracker_server` value listing `es`, separated by commas. -/
def serverList (es : List ConfEntry) : String :=
  String.mk ([','].intercalate (es.map ConfEntry.text))

/-- The non-empty hosts of `es` in their listed order. -/
def listedHosts (es : List ConfEntry) : List String :=
  ((es.map ConfEntry.host).filter fun h => h ≠ []).map String.mk

/-- The port of the last entry of `es` that carries one, or 22122. -/
def listedPort (es : List ConfEntry) : Int :=
  match (es.filterMap ConfEntry.port).getLast? with
  | some p => (decimalValue p : Int)
  | none => 22122

/-- The host a loop iteration of `getTrackerConf` appends for entry `tr`: its
first colon-separated part after trimming, unless that part is empty. -/
def entryHosts (tr : List Char) : List String :=
  let trackerIp := (Split (TrimSpace tr) ':').headD []
  if trackerIp ≠ [] then [String.mk trackerIp] else []

/-- The port text after a loop iteration of `getTrackerConf` on entry `tr`,
when it was `port` before. -/
def entryPort (port : List Char) (tr : List Char) : List Char :=
  if (Split (TrimSpace tr) ':').length = 2 then (Split (TrimSpace tr) ':').getD 1 [] else port

/-! ## Lemmas on the standard-library models -/

theorem Split_ne_nil (s : List Char) (sep : Char) : Split s sep ≠ [] := by
  cases s with
  | nil => simp [Split]
  | cons c cs =>
    unfold Split
    split
    · simp
    · split <;> simp

theorem Split_of_not_mem (sep : Char) (s : List Char) (h : sep ∉ s) : Split s sep = [s] := by
  induction s with
  | nil => simp [Split]
  | cons c cs ih =>
    have hc : c ≠ sep := fun hcs => h (by simp [hcs])
    have hcs : sep ∉ cs := fun hm => h (List.mem_cons_of_mem _ hm)
    unfold Split
    rw [if_neg hc, ih hcs]

theorem Split_append_sep (sep : Char) (s t : List Char) (h : sep ∉ s) :
    Split (s ++ sep :: t) sep = s :: Split t sep := by
  induction s with
  | nil =>
    show Split (sep :: t) sep = _
    rw [Split, if_pos rfl]
  | cons c cs ih =>
    have hc : c ≠ sep := fun hcs => h (by simp [hcs])
    have hcs : sep ∉ cs := fun hm => h (List.mem_cons_of_mem _ hm)
    show Split (c :: (cs ++ sep :: t)) sep = _
    rw [Split, if_neg hc, ih hcs]

theorem Split_intercalate (sep : Char) (x : List Char) (xs : List (List Char))
    (h : ∀ l ∈ x :: xs, sep ∉ l) :
    Split ([sep].intercalate (x :: xs)) sep = x :: xs := by
  induction xs generalizing x with
  | nil =>
    have hx : sep ∉ x := h x (by simp)
    simpa [List.intercalate] using Split_of_not_mem sep x hx
  | cons y ys ih =>
    have hx : sep ∉ x := h x (by simp)
    have hrest : ∀ l ∈ y :: ys, sep ∉ l := fun l hl => h l (List.mem_cons_of_mem _ hl)
    have e : [sep].intercalate (x :: y :: ys) = x ++ sep :: [sep].intercalate (y :: ys) := by
      simp [List.intercalate, List.intersperse]
    rw [e, Split_append_sep sep x _ hx, ih y hrest]

theorem dropWhile_space_append (l r : List Char) (h : ∀ c ∈ l, isSpace c = true) :
    (l ++ r).dropWhile isSpace = r.dropWhile isSpace := by
  induction l with
  | nil => rfl
  | cons c cs ih =>
    have hc : isSpace c = true := h c (by simp)
    have hcs : ∀ d ∈ cs, isSpace d = true := fun d hd => h d (List.mem_cons_of_mem _ hd)
    simp [List.dropWhile, hc, ih hcs]

theorem dropWhile_space_all (l : List Char) (h : ∀ c ∈ l, isSpace c = true) :
    l.dropWhile isSpace = [] := by
  simpa using dropWhile_space_append l [] h

theorem dropWhile_space_head (s : List Char)
    (h : ∀ c, s.head? = some c → isSpace c = false) : s.dropWhile isSpace = s := by
  cases s with
  | nil => rfl
  | cons c cs =>
    have hc : isSpace c = false := h c rfl
    simp [List.dropWhile, hc]

/-- Trimming an entry padded with white space gives back its body. -/
theorem TrimSpace_pad (lead body trail : List Char)
    (hl : ∀ c ∈ lead, isSpace c = true) (ht : ∀ c ∈ trail, isSpace c = true)
    (hb : noOuterSpace body = true) : TrimSpace (lead ++ body ++ trail) = body := by
  have h1 : ∀ c, body.head? = some c → isSpace c = false := by
    intro c hc
    simp [noOuterSpace, hc] at hb
    exact hb.1
  have h2 : ∀ c, body.reverse.head? = some c → isSpace c = false := by
    intro c hc
    rw [List.head?_reverse] at hc
    simp [noOuterSpace, hc] at hb
    exact hb.2
  unfold TrimSpace
  rw [List.append_assoc, dropWhile_space_append lead _ hl]
  cases hbody : body with
  | nil =>
    simp [dropWhile_space_all trail ht]
  | cons b bs =>
    rw [← hbody]
    have e1 : (body ++ trail).dropWhile isSpace = body ++ trail := by
      apply dropWhile_space_head
      intro c hc
      apply h1
      rw [hbody] at hc ⊢
      simpa using hc
    rw [e1, List.reverse_append,
      dropWhile_space_append trail.reverse _ (fun c hc => ht c (List.mem_reverse.mp hc)),
      dropWhile_space_head _ h2, List.reverse_reverse]

theorem isSpace_of_isDigit (c : Char) (h : isDigit c = true) : isSpace c = false := by
  simp only [isDigit, Bool.and_eq_true, decide_eq_true_eq] at h
  simp only [isSpace, Bool.or_eq_false_iff, Bool.and_eq_false_iff, beq_eq_false_iff_ne,
    decide_eq_false_iff_not]
  omega

theorem ne_colon_of_isDigit (c : Char) (h : isDigit c = true) : c ≠ ':' := by
  intro hc
  subst hc
  revert h
  decide

theorem ne_comma_of_isDigit (c : Char) (h : isDigit c = true) : c ≠ ',' := by
  intro hc
  subst hc
  revert h
  decide

theorem ne_comma_of_isSpace (c : Char) (h : isSpace c = true) : c ≠ ',' := by
  intro hc
  subst hc
  revert h
  decide

/-- The facts packed in `ConfEntry.wellFormed`. -/
theorem wellFormed_iff (e : ConfEntry) :
    e.wellFormed = true ↔
      (∀ c ∈ e.lead, isSpace c = true) ∧ (∀ c ∈ e.trail, isSpace c = true) ∧
      (∀ c ∈ e.host, c ≠ ',' ∧ c ≠ ':') ∧ noOuterSpace e.host = true ∧
      (∀ p, e.port = some p → p ≠ [] ∧ (∀ c ∈ p, isDigit c = true) ∧ decimalValue p < 2 ^ 63) := by
  unfold ConfEntry.wellFormed
  cases hp : e.port with
  | none => simp [and_assoc]
  | some p => simp [List.isEmpty_iff, and_assoc]

theorem wellFormed_body (e : ConfEntry) (h : e.wellFormed = true) :
    noOuterSpace e.body = true := by
  obtain ⟨_, _, _, hh, hp⟩ := (wellFormed_iff e).mp h
  unfold ConfEntry.body
  cases hport : e.port with
  | none => simpa using hh
  | some p =>
    obtain ⟨hne, hdig, _⟩ := hp p hport
    have hlast : ∀ c, p.getLast? = some c → isSpace c = false := fun c hc =>
      isSpace_of_isDigit c (hdig c (List.mem_of_getLast?_eq_some hc))
    have hcolon : isSpace ':' = false := by decide
    simp only [noOuterSpace, Bool.and_eq_true] at hh ⊢
    constructor
    · cases hhost : e.host with
      | nil => simp [hcolon]
      | cons a as =>
        have := hh.1
        rw [hhost] at this
        simpa using this
    · have e1 : (e.host ++ ':' :: p).getLast? = p.getLast? := by
        cases p with
        | nil => exact absurd rfl hne
        | cons a as =>
          rw [show e.host ++ ':' :: a :: as = (e.host ++ [':']) ++ a :: as by simp]
          rw [List.getLast?_append_cons]
      rw [e1]
      cases hl : p.getLast? with
      | none => rfl
      | some c => simp [hlast c hl]

theorem wellFormed_no_comma (e : ConfEntry) (h : e.wellFormed = true) : ',' ∉ e.text := by
  obtain ⟨hl, ht, hh, _, hp⟩ := (wellFormed_iff e).mp h
  have hbody : ',' ∉ e.body := by
    unfold ConfEntry.body
    cases hport : e.port with
    | none => exact fun hm => (hh _ hm).1 rfl
    | some p =>
      obtain ⟨_, hdig, _⟩ := hp p hport
      intro hm
      rcases List.mem_append.mp hm with hm | hm
      · exact (hh _ hm).1 rfl
      · rcases List.mem_cons.mp hm with hm | hm
        · exact absurd hm (by decide)
        · exact ne_comma_of_isDigit _ (hdig _ hm) rfl
  intro hm
  unfold ConfEntry.text at hm
  rcases List.mem_append.mp hm with hm | hm
  · rcases List.mem_append.mp hm with hm | hm
    · exact ne_comma_of_isSpace _ (hl _ hm) rfl
    · exact hbody hm
  · exact ne_comma_of_isSpace _ (ht _ hm) rfl

theorem wellFormed_trim (e : ConfEntry) (h : e.wellFormed = true) :
    TrimSpace e.text = e.body := by
  obtain ⟨hl, ht, _, _, _⟩ := (wellFormed_iff e).mp h
  exact TrimSpace_pad e.lead e.body e.trail hl ht (wellFormed_body e h)

theorem wellFormed_split (e : ConfEntry) (h : e.wellFormed = true) :
    Split e.body ':' =
      match e.port with
      | none => [e.host]
      | some p => [e.host, p] := by
  obtain ⟨_, _, hh, _, hp⟩ := (wellFormed_iff e).mp h
  have hhost : ':' ∉ e.host := fun hm => (hh _ hm).2 rfl
  unfold ConfEntry.body
  cases hport : e.port with
  | none => exact Split_of_not_mem ':' e.host hhost
  | some p =>
    obtain ⟨_, hdig, _⟩ := hp p hport
    have hpc : ':' ∉ p := fun hm => ne_colon_of_isDigit _ (hdig _ hm) rfl
    show Split (e.host ++ ':' :: p) ':' = [e.host, p]
    rw [Split_append_sep ':' e.host p hhost, Split_of_not_mem ':' p hpc]

theorem trackerLoopBody_eq (st : List String × List Char) (tr : List Char) :
    trackerLoopBody st tr = (st.1 ++ entryHosts tr, entryPort st.2 tr) := by
  unfold trackerLoopBody entryHosts entryPort
  by_cases h : (Split (TrimSpace tr) ':').headD [] = []
  · simp only [h, ne_eq, not_true_eq_false, if_false, List.append_nil]
  · simp only [h, ne_eq, not_false_eq_true, if_true]

theorem foldl_trackerLoopBody (l : List (List Char)) (st : List String × List Char) :
    l.foldl trackerLoopBody st = (st.1 ++ l.flatMap entryHosts, l.foldl entryPort st.2) := by
  induction l generalizing st with
  | nil => simp
  | cons tr rest ih =>
    rw [List.foldl_cons, ih, trackerLoopBody_eq]
    simp [List.flatMap_cons, List.append_assoc]

theorem entryHosts_wellFormed (e : ConfEntry) (h : e.wellFormed = true) :
    entryHosts e.text = if e.host ≠ [] then [String.mk e.host] else [] := by
  unfold entryHosts
  rw [wellFormed_trim e h, wellFormed_split e h]
  cases e.port <;> rfl

theorem entryPort_wellFormed (e : ConfEntry) (h : e.wellFormed = true) (port : List Char) :
    entryPort port e.text = e.port.getD port := by
  unfold entryPort
  rw [wellFormed_trim e h, wellFormed_split e h]
  cases e.port <;> rfl

theorem flatMap_entryHosts (es : List ConfEntry) (h : ∀ e ∈ es, e.wellFormed = true) :
    (es.map ConfEntry.text).flatMap entryHosts = listedHosts es := by
  induction es with
  | nil => rfl
  | cons e rest ih =>
    have he := h e (by simp)
    have hrest : ∀ x ∈ rest, x.wellFormed = true := fun x hx => h x (List.mem_cons_of_mem _ hx)
    rw [List.map_cons, List.flatMap_cons, ih hrest, entryHosts_wellFormed e he]
    unfold listedHosts
    by_cases hh : e.host = [] <;> simp [hh]

theorem foldl_entryPort (es : List ConfEntry) (h : ∀ e ∈ es, e.wellFormed = true)
    (port : List Char) :
    (es.map ConfEntry.text).foldl entryPort port =
      ((es.filterMap ConfEntry.port).getLast?).getD port := by
  induction es generalizing port with
  | nil => rfl
  | cons e rest ih =>
    have he := h e (by simp)
    have hrest : ∀ x ∈ rest, x.wellFormed = true := fun x hx => h x (List.mem_cons_of_mem _ hx)
    rw [List.map_cons, List.foldl_cons, ih hrest, entryPort_wellFormed e he]
    cases hp : e.port with
    | none => simp [List.filterMap_cons, hp]
    | some p =>
      simp only [List.filterMap_cons, hp, Option.getD_some, List.getLast?_cons]

theorem le_foldl_digits (ds : List Char) (n : Nat) :
    n ≤ ds.foldl (fun n c => n * 10 + (c.toNat - 48)) n := by
  induction ds generalizing n with
  | nil => exact Nat.le_refl n
  | cons c cs ih =>
    rw [List.foldl_cons]
    exact Nat.le_trans (by omega) (ih (n * 10 + (c.toNat - 48)))

/-- On decimal digits whose value fits in 63 bits the digit loop of `ParseUint`
computes that value and reports no error. -/
theorem parseUintLoop_digits (ds : List Char) (n : Nat)
    (hd : ∀ c ∈ ds, isDigit c = true)
    (hv : ds.foldl (fun n c => n * 10 + (c.toNat - 48)) n < 2 ^ 63) :
    parseUintLoop n ds = (ds.foldl (fun n c => n * 10 + (c.toNat - 48)) n, none) := by
  induction ds generalizing n with
  | nil => rfl
  | cons c cs ih =>
    have hc : isDigit c = true := hd c (by simp)
    have hcs : ∀ d ∈ cs, isDigit d = true := fun d hm => hd d (List.mem_cons_of_mem _ hm)
    rw [List.foldl_cons] at hv ⊢
    have hle := le_foldl_digits cs (n * 10 + (c.toNat - 48))
    have h1 : ¬ n ≥ maxUint64 / 10 + 1 := by
      simp only [maxUint64]
      omega
    have h2 : ¬ n * 10 + (c.toNat - 48) > maxUint64 := by
      simp only [maxUint64]
      omega
    rw [parseUintLoop, if_pos hc]
    simp only [h1, h2, if_false]
    exact ih _ hcs hv

/-- On a non-empty string of decimal digits that denotes a Go `int`, `Atoi`
returns the denoted number and a nil error. -/
theorem Atoi_digits (ds : List Char) (hne : ds ≠ []) (hd : ∀ c ∈ ds, isDigit c = true)
    (hv : decimalValue ds < 2 ^ 63) : Atoi ds = ((decimalValue ds : Int), none) := by
  cases ds with
  | nil => exact absurd rfl hne
  | cons c cs =>
    have hc : isDigit c = true := hd c (by simp)
    have hplus : c ≠ '+' := by
      intro h
      subst h
      revert hc
      decide
    have hminus : c ≠ '-' := by
      intro h
      subst h
      revert hc
      decide
    have hloop := parseUintLoop_digits (c :: cs) 0 hd hv
    have hv2 : ¬ decimalValue (c :: cs) ≥ 2 ^ 63 := by omega
    unfold Atoi ParseInt
    simp only [hplus, hminus, or_self, if_false, ParseUint, hloop]
    simp only [decimalValue] at hv2 hv ⊢
    simp only [List.foldl_cons, Nat.zero_mul, Nat.zero_add] at hv2 hv ⊢
    norm_num at hv
    simp [hv]

/-! ## The storage-pool slot and the public operations -/

/-- With an indexable slot `getStoragePool` returns, and it issues no tracker
query and no storage operation. -/
theorem getStoragePool_returns {U D : Type} (env : Env U D) (this : FdfsClient)
    (ipAddr : String) (port : Int) (w : World) (hslot : this.slotIndexable = true) :
    ∃ v w1, getStoragePool env this ipAddr port w = Run.ret v w1 ∧
      w1.trackerQueries = w.trackerQueries ∧ w1.storageOps = w.storageOps := by
  unfold getStoragePool
  cases hsp : this.storagePool with
  | none =>
    simp only [NewConnectionPool]
    cases env.dial w [ipAddr] port 10 150 <;>
      exact ⟨_, _, rfl, by simp [World.trackerQueries, World.log, List.filterMap_append],
        by simp [World.storageOps, World.log, List.filterMap_append]⟩
  | some sp =>
    cases hh : sp.hosts with
    | nil => simp [FdfsClient.slotIndexable, hsp, hh] at hslot
    | cons h0 rest =>
      by_cases heq : ipAddr = h0
      · simp only [hh, heq, if_true]
        exact ⟨_, _, rfl, rfl, rfl⟩
      · simp only [hh, heq, if_false, NewConnectionPool]
        cases env.dial (sp.Close w) [ipAddr] port 10 150 <;>
          exact ⟨_, _, rfl,
            by simp [World.trackerQueries, World.log, ConnectionPool.Close, List.filterMap_append],
            by simp [World.storageOps, World.log, ConnectionPool.Close, List.filterMap_append]⟩

/-- Every client `NewFdfsClient` returns has an empty storage slot. -/
theorem NewFdfsClient_slot {U D : Type} (env : Env U D) (confPath : String) (w w1 : World)
    (c : FdfsClient) (err : Option GoError)
    (h : NewFdfsClient env confPath w = Run.ret (some c, err) w1) :
    c.storagePool = none ∧ c.slotIndexable = true := by
  unfold NewFdfsClient at h
  split at h
  · cases h
  · cases h
  · simp at h
  · cases h
  · split at h
    · cases h
    · cases h
    · simp at h
    · simp only [Run.ret.injEq, Prod.mk.injEq, Option.some.injEq] at h
      obtain ⟨⟨hc, _⟩, _⟩ := h
      subst hc
      exact ⟨rfl, rfl⟩

/-- The guard of the identifier-based operations: when the decoder reports an
error `e`, each of them returns `e` and leaves the world as it was. -/
theorem identifier_error_returned {U D : Type} (env : Env U D) (this : FdfsClient)
    (w : World) (filebuffer : List Nat) (localFilename remoteFileId fileExtName : String)
    (offset downloadSize : Int) (tmp : List String) (e : GoError)
    (hid : env.splitRemoteFileId remoteFileId = (tmp, some e)) :
    UploadSlaveByBuffer env this filebuffer remoteFileId fileExtName w =
      Run.ret (none, some e) w ∧
    DeleteFile env this remoteFileId w = Run.ret (some e) w ∧
    DownloadToFile env this localFilename remoteFileId offset downloadSize w =
      Run.ret (none, some e) w ∧
    DownloadToBuffer env this remoteFileId offset downloadSize w =
      Run.ret (none, some e) w := by
  refine ⟨?_, ?_, ?_, ?_⟩
  · simp only [UploadSlaveByBuffer, hid]
  · simp only [DeleteFile, hid]
  · simp only [DownloadToFile, hid]
  · simp only [DownloadToBuffer, hid]

theorem trackerQueries_log_query (w : World) (pool : Option ConnectionPool) (q : TrackerQuery) :
    (w.log (Event.trackerQuery pool q)).trackerQueries = w.trackerQueries ++ [q] := by
  simp [World.trackerQueries, World.log, List.filterMap_append]

theorem storageOps_log_query (w : World) (pool : Option ConnectionPool) (q : TrackerQuery) :
    (w.log (Event.trackerQuery pool q)).storageOps = w.storageOps := by
  simp [World.storageOps, World.log, List.filterMap_append]

theorem trackerQueries_log_storageOp (w : World) (pool tp : Option ConnectionPool)
    (storeServ : StorageServer) (op : StorageOp) :
    (w.log (Event.storageOp pool tp storeServ op)).trackerQueries = w.trackerQueries := by
  simp [World.trackerQueries, World.log, List.filterMap_append]

theorem storageOps_log_storageOp (w : World) (pool tp : Option ConnectionPool)
    (storeServ : StorageServer) (op : StorageOp) :
    (w.log (Event.storageOp pool tp storeServ op)).storageOps =
      w.storageOps ++ [(storeServ, op)] := by
  simp [World.storageOps, World.log, List.filterMap_append]

/-- C9. Routing table. On a call that passes its pre-check (the local file
check succeeds, the file identifier decodes to `[groupName, remoteFilename]`
with a nil error) and finds the storage slot indexable, each of the nine
public operations returns, issues exactly one tracker query, the one the table
assigns to it, and dispatches its storage operation exactly once with the
endpoint the query answered and, for identifier-based operations, the second
decoded component as remote filename; when the query fails no storage
operation is dispatched. -/
theorem routing_table {U D : Type} (env : Env U D) (this : FdfsClient) (w : World)
    (filename remoteFileId prefixName localFilename fileExtName groupName remoteFilename : String)
    (filebuffer : List Nat) (offset downloadSize : Int)
    (hslot : this.slotIndexable = true)
    (hfile : env.fdfsCheckFile w filename = none)
    (hid : env.splitRemoteFileId remoteFileId = ([groupName, remoteFilename], none)) :
    Routed (UploadByFilename env this filename w) w TrackerQuery.StorWithoutGroup
      (env.tracker w this.trackerPool TrackerQuery.StorWithoutGroup)
      (StorageOp.UploadByFilename filename) ∧
    Routed (UploadByBuffer env this filebuffer fileExtName w) w TrackerQuery.StorWithoutGroup
      (env.tracker w this.trackerPool TrackerQuery.StorWithoutGroup)
      (StorageOp.UploadByBuffer filebuffer fileExtName) ∧
    Routed (UploadSlaveByFilename env this filename remoteFileId prefixName w) w
      (TrackerQuery.StorWithGroup groupName)
      (env.tracker w this.trackerPool (TrackerQuery.StorWithGroup groupName))
      (StorageOp.UploadSlaveByFilename filename prefixName remoteFilename) ∧
    Routed (UploadSlaveByBuffer env this filebuffer remoteFileId fileExtName w) w
      (TrackerQuery.StorWithGroup groupName)
      (env.tracker w this.trackerPool (TrackerQuery.StorWithGroup groupName))
      (StorageOp.UploadSlaveByBuffer filebuffer remoteFilename fileExtName) ∧
    Routed (UploadAppenderByFilename env this filename w) w TrackerQuery.StorWithoutGroup
      (env.tracker w this.trackerPool TrackerQuery.StorWithoutGroup)
      (StorageOp.UploadAppenderByFilename filename) ∧
    Routed (UploadAppenderByBuffer env this filebuffer fileExtName w) w
      TrackerQuery.StorWithoutGroup
      (env.tracker w this.trackerPool TrackerQuery.StorWithoutGroup)
      (StorageOp.UploadAppenderByBuffer filebuffer fileExtName) ∧
    Routed (DeleteFile env this remoteFileId w) w
      (TrackerQuery.Update groupName remoteFilename)
      (env.tracker w this.trackerPool (TrackerQuery.Update groupName remoteFilename))
      (StorageOp.DeleteFile remoteFilename) ∧
    Routed (DownloadToFile env this localFilename remoteFileId offset downloadSize w) w
      (TrackerQuery.Fetch groupName remoteFilename)
      (env.tracker w this.trackerPool (TrackerQuery.Fetch groupName remoteFilename))
      (StorageOp.DownloadToFile localFilename offset downloadSize remoteFilename) ∧
    Routed (DownloadToBuffer env this remoteFileId offset downloadSize w) w
      (TrackerQuery.Fetch groupName remoteFilename)
      (env.tracker w this.trackerPool (TrackerQuery.Fetch groupName remoteFilename))
      (StorageOp.DownloadToBuffer [] offset downloadSize remoteFilename) := by
  refine ⟨?_, ?_, ?_, ?_, ?_, ?_, ?_, ?_, ?_⟩
  · unfold Routed UploadByFilename
    simp only [hfile]
    simp only [TrackerClient.query]
    cases hq : env.tracker w this.trackerPool (TrackerQuery.StorWithoutGroup) with
    | error err =>
      simp [Run.world, trackerQueries_log_query, storageOps_log_query]
    | ok storeServ =>
      obtain ⟨v, w2, hg, h1, h2⟩ := getStoragePool_returns env this storeServ.ipAddr
        storeServ.port (w.log (Event.trackerQuery this.trackerPool (TrackerQuery.StorWithoutGroup))) hslot
      simp [hg, StorageClient.storageUpload, Run.world, trackerQueries_log_storageOp,
        storageOps_log_storageOp, h1, h2, trackerQueries_log_query, storageOps_log_query]
  · unfold Routed UploadByBuffer
    simp only [TrackerClient.query]
    cases hq : env.tracker w this.trackerPool (TrackerQuery.StorWithoutGroup) with
    | error err =>
      simp [Run.world, trackerQueries_log_query, storageOps_log_query]
    | ok storeServ =>
      obtain ⟨v, w2, hg, h1, h2⟩ := getStoragePool_returns env this storeServ.ipAddr
        storeServ.port (w.log (Event.trackerQuery this.trackerPool (TrackerQuery.StorWithoutGroup))) hslot
      simp [hg, StorageClient.storageUpload, Run.world, trackerQueries_log_storageOp,
        storageOps_log_storageOp, h1, h2, trackerQueries_log_query, storageOps_log_query]
  · unfold Routed UploadSlaveByFilename
    simp only [hfile, hid]
    simp only [TrackerClient.query]
    cases hq : env.tracker w this.trackerPool (TrackerQuery.StorWithGroup groupName) with
    | error err =>
      simp [Run.world, trackerQueries_log_query, storageOps_log_query]
    | ok storeServ =>
      obtain ⟨v, w2, hg, h1, h2⟩ := getStoragePool_returns env this storeServ.ipAddr
        storeServ.port (w.log (Event.trackerQuery this.trackerPool (TrackerQuery.StorWithGroup groupName))) hslot
      simp [hg, StorageClient.storageUpload, Run.world, trackerQueries_log_storageOp,
        storageOps_log_storageOp, h1, h2, trackerQueries_log_query, storageOps_log_query]
  · unfold Routed UploadSlaveByBuffer
    simp only [hid]
    simp only [TrackerClient.query]
    cases hq : env.tracker w this.trackerPool (TrackerQuery.StorWithGroup groupName) with
    | error err =>
      simp [Run.world, trackerQueries_log_query, storageOps_log_query]
    | ok storeServ =>
      obtain ⟨v, w2, hg, h1, h2⟩ := getStoragePool_returns env this storeServ.ipAddr
        storeServ.port (w.log (Event.trackerQuery this.trackerPool (TrackerQuery.StorWithGroup groupName))) hslot
      simp [hg, StorageClient.storageUpload, Run.world, trackerQueries_log_storageOp,
        storageOps_log_storageOp, h1, h2, trackerQueries_log_query, storageOps_log_query]
  · unfold Routed UploadAppenderByFilename
    simp only [hfile]
    simp only [TrackerClient.query]
    cases hq : env.tracker w this.trackerPool (TrackerQuery.StorWithoutGroup) with
    | error err =>
      simp [Run.world, trackerQueries_log_query, storageOps_log_query]
    | ok storeServ =>
      obtain ⟨v, w2, hg, h1, h2⟩ := getStoragePool_returns env this storeServ.ipAddr
        storeServ.port (w.log (Event.trackerQuery this.trackerPool (TrackerQuery.StorWithoutGroup))) hslot
      simp [hg, StorageClient.storageUpload, Run.world, trackerQueries_log_storageOp,
        storageOps_log_storageOp, h1, h2, trackerQueries_log_query, storageOps_log_query]
  · unfold Routed UploadAppenderByBuffer
    simp only [TrackerClient.query]
    cases hq : env.tracker w this.trackerPool (TrackerQuery.StorWithoutGroup) with
    | error err =>
      simp [Run.world, trackerQueries_log_query, storageOps_log_query]
    | ok storeServ =>
      obtain ⟨v, w2, hg, h1, h2⟩ := getStoragePool_returns env this storeServ.ipAddr
        storeServ.port (w.log (Event.trackerQuery this.trackerPool (TrackerQuery.StorWithoutGroup))) hslot
      simp [hg, StorageClient.storageUpload, Run.world, trackerQueries_log_storageOp,
        storageOps_log_storageOp, h1, h2, trackerQueries_log_query, storageOps_log_query]
  · unfold Routed DeleteFile
    simp only [hid]
    simp only [TrackerClient.query]
    cases hq : env.tracker w this.trackerPool (TrackerQuery.Update groupName remoteFilename) with
    | error err =>
      simp [Run.world, trackerQueries_log_query, storageOps_log_query]
    | ok storeServ =>
      obtain ⟨v, w2, hg, h1, h2⟩ := getStoragePool_returns env this storeServ.ipAddr
        storeServ.port (w.log (Event.trackerQuery this.trackerPool (TrackerQuery.Update groupName remoteFilename))) hslot
      simp [hg, StorageClient.storageDeleteFile, Run.world, trackerQueries_log_storageOp,
        storageOps_log_storageOp, h1, h2, trackerQueries_log_query, storageOps_log_query]
  · unfold Routed DownloadToFile
    simp only [hid]
    simp only [TrackerClient.query]
    cases hq : env.tracker w this.trackerPool (TrackerQuery.Fetch groupName remoteFilename) with
    | error err =>
      simp [Run.world, trackerQueries_log_query, storageOps_log_query]
    | ok storeServ =>
      obtain ⟨v, w2, hg, h1, h2⟩ := getStoragePool_returns env this storeServ.ipAddr
        storeServ.port (w.log (Event.trackerQuery this.trackerPool (TrackerQuery.Fetch groupName remoteFilename))) hslot
      simp [hg, StorageClient.storageDownload, Run.world, trackerQueries_log_storageOp,
        storageOps_log_storageOp, h1, h2, trackerQueries_log_query, storageOps_log_query]
  · unfold Routed DownloadToBuffer
    simp only [hid]
    simp only [TrackerClient.query]
    cases hq : env.tracker w this.trackerPool (TrackerQuery.Fetch groupName remoteFilename) with
    | error err =>
      simp [Run.world, trackerQueries_log_query, storageOps_log_query]
    | ok storeServ =>
      obtain ⟨v, w2, hg, h1, h2⟩ := getStoragePool_returns env this storeServ.ipAddr
        storeServ.port (w.log (Event.trackerQuery this.trackerPool (TrackerQuery.Fetch groupName remoteFilename))) hslot
      simp [hg, StorageClient.storageDownload, Run.world, trackerQueries_log_storageOp,
        storageOps_log_storageOp, h1, h2, trackerQueries_log_query, storageOps_log_query]

/-- Witness of `routing_table`: on the fresh client with all-succeeding
collaborators the three pre-check hypotheses hold, and `DeleteFile` of
`group1:file1` is routed by the update query on `("group1", "file1")` to the
delete of `file1` on the answered endpoint. -/
theorem routing_table_witness :
    freshClient.slotIndexable = true ∧
    envOk.fdfsCheckFile world0 "a.txt" = none ∧
    envOk.splitRemoteFileId "group1:file1" = (["group1", "file1"], none) ∧
    Routed (DeleteFile envOk freshClient "group1:file1" world0) world0
      (TrackerQuery.Update "group1" "file1") (Except.ok storeA)
      (StorageOp.DeleteFile "file1") :=
  ⟨rfl, rfl, rfl,
    (routing_table envOk freshClient world0 "a.txt" "group1:file1" "thumb" "out.bin" "txt"
      "group1" "file1" [] 0 0 rfl rfl rfl).2.2.2.2.2.2.1⟩

/-- C5. When the local file check fails with error `e`, each of
`UploadByFilename`, `UploadSlaveByFilename` and `UploadAppenderByFilename`
returns a nil response and the error `errors.New(e.Error() + "(uploading)")`,
whose message is the message of `e` followed by `(uploading)`, and leaves the
world as it was: no tracker query, no pool created or closed, no storage
operation; for `UploadSlaveByFilename` whatever the file identifier is. -/
theorem upload_file_check_failure {U D : Type} (env : Env U D) (this : FdfsClient)
    (w : World) (filename remoteFileId prefixName : String) (e : GoError)
    (hcheck : env.fdfsCheckFile w filename = some e) :
    UploadByFilename env this filename w =
      (Run.ret (none, some (GoError.errorsNew (e.Error ++ "(uploading)"))) w :
        Run (Option U × Option GoError)) ∧
    UploadSlaveByFilename env this filename remoteFileId prefixName w =
      (Run.ret (none, some (GoError.errorsNew (e.Error ++ "(uploading)"))) w :
        Run (Option U × Option GoError)) ∧
    UploadAppenderByFilename env this filename w =
      (Run.ret (none, some (GoError.errorsNew (e.Error ++ "(uploading)"))) w :
        Run (Option U × Option GoError)) ∧
    (GoError.errorsNew (e.Error ++ "(uploading)")).Error = e.Error ++ "(uploading)" := by
  refine ⟨?_, ?_, ?_, rfl⟩
  · simp only [UploadByFilename, hcheck]
  · simp only [UploadSlaveByFilename, hcheck]
  · simp only [UploadAppenderByFilename, hcheck]

/-- Witness of `upload_file_check_failure`: uploading the missing file
`/tmp/missing` returns the annotated error and leaves the world untouched. -/
theorem upload_file_check_failure_witness :
    envNoFile.fdfsCheckFile world0 "/tmp/missing" = some errNoFile ∧
    UploadByFilename envNoFile freshClient "/tmp/missing" world0 =
      Run.ret (none, some (GoError.errorsNew
        "stat /tmp/missing: no such file or directory(uploading)")) world0 :=
  ⟨rfl, (upload_file_check_failure envNoFile freshClient world0 "/tmp/missing"
    "not-an-identifier" "thumb" errNoFile rfl).1⟩

/-- C6. When the file identifier decodes to exactly the two parts
`[groupName, remoteFilename]` and the tracker query for the update route fails
with error `e`, `DeleteFile` returns exactly `e`, and the only thing that
happened is that one tracker query: the storage delete is not invoked and no
pool is created or closed. -/
theorem DeleteFile_tracker_failure {U D : Type} (env : Env U D) (this : FdfsClient)
    (w : World) (remoteFileId groupName remoteFilename : String) (e : GoError)
    (hid : env.splitRemoteFileId remoteFileId = ([groupName, remoteFilename], none))
    (hquery : env.tracker w this.trackerPool (TrackerQuery.Update groupName remoteFilename) =
      Except.error e) :
    DeleteFile env this remoteFileId w =
      Run.ret (some e)
        ⟨w.events ++ [Event.trackerQuery this.trackerPool
          (TrackerQuery.Update groupName remoteFilename)], w.nextPool⟩ ∧
    (DeleteFile env this remoteFileId w).world.storageOps = w.storageOps ∧
    (DeleteFile env this remoteFileId w).world.created = w.created ∧
    ∀ pool, (DeleteFile env this remoteFileId w).world.closeCount pool = w.closeCount pool := by
  have h : DeleteFile env this remoteFileId w =
      Run.ret (some e)
        ⟨w.events ++ [Event.trackerQuery this.trackerPool
          (TrackerQuery.Update groupName remoteFilename)], w.nextPool⟩ := by
    simp only [DeleteFile, hid, TrackerClient.query, hquery, World.log]
  rw [h]
  refine ⟨rfl, ?_, ?_, ?_⟩
  · simp [Run.world, World.storageOps, List.filterMap_append]
  · simp [Run.world, World.created, List.filterMap_append]
  · intro pool
    simp [Run.world, World.closeCount, List.count_append]

/-- Witness of `DeleteFile_tracker_failure`: `DeleteFile("group1:file1")`
with a failing update-route query returns the tracker error. -/
theorem DeleteFile_tracker_failure_witness :
    envTrackerDown.splitRemoteFileId "group1:file1" = (["group1", "file1"], none) ∧
    envTrackerDown.tracker world0 freshClient.trackerPool
      (TrackerQuery.Update "group1" "file1") = Except.error errTracker ∧
    DeleteFile envTrackerDown freshClient "group1:file1" world0 =
      Run.ret (some errTracker)
        ⟨[Event.poolCreated trackerPool0,
          Event.trackerQuery (some trackerPool0) (TrackerQuery.Update "group1" "file1")], 1⟩ :=
  ⟨rfl, rfl, (DeleteFile_tracker_failure envTrackerDown freshClient world0 "group1:file1"
    "group1" "file1" errTracker rfl rfl).1⟩

/-- C7. With a decoder that obeys its contract, for every file identifier
whose decoding reports an error or yields a number of parts other than two,
each of the five identifier-based operations fails: it returns a nil response
and a non-nil error in the unchanged world, so it performs no tracker query and
no storage operation. The error is the one the decoder reported;
`UploadSlaveByFilename` returns it when its file check passes and the
annotated file error otherwise. -/
theorem identifier_rejected {U D : Type} (env : Env U D) (this : FdfsClient) (w : World)
    (filebuffer : List Nat)
    (filename localFilename remoteFileId prefixName fileExtName : String)
    (offset downloadSize : Int)
    (hcontract : DecoderContract env.splitRemoteFileId)
    (hbad : (env.splitRemoteFileId remoteFileId).2 ≠ none ∨
      (env.splitRemoteFileId remoteFileId).1.length ≠ 2) :
    ∃ e, (env.splitRemoteFileId remoteFileId).2 = some e ∧
      (∃ err, UploadSlaveByFilename env this filename remoteFileId prefixName w =
          (Run.ret (none, some err) w : Run (Option U × Option GoError)) ∧
        (env.fdfsCheckFile w filename = none → err = e)) ∧
      UploadSlaveByBuffer env this filebuffer remoteFileId fileExtName w =
        (Run.ret (none, some e) w : Run (Option U × Option GoError)) ∧
      DeleteFile env this remoteFileId w = Run.ret (some e) w ∧
      DownloadToFile env this localFilename remoteFileId offset downloadSize w =
        (Run.ret (none, some e) w : Run (Option D × Option GoError)) ∧
      DownloadToBuffer env this remoteFileId offset downloadSize w =
        (Run.ret (none, some e) w : Run (Option D × Option GoError)) := by
  obtain ⟨tmp, err, hsplit⟩ : ∃ tmp err, env.splitRemoteFileId remoteFileId = (tmp, err) :=
    ⟨_, _, rfl⟩
  have hlen := hcontract remoteFileId
  rw [hsplit] at hbad hlen ⊢
  cases err with
  | none =>
    exfalso
    rcases hbad with h | h
    · exact h rfl
    · exact hlen h rfl
  | some e =>
    obtain ⟨hb, hd, hf, hbuf⟩ := identifier_error_returned env this w filebuffer
      localFilename remoteFileId fileExtName offset downloadSize tmp e hsplit
    refine ⟨e, rfl, ?_, hb, hd, hf, hbuf⟩
    cases hc : env.fdfsCheckFile w filename with
    | some ferr =>
      refine ⟨GoError.errorsNew (ferr.Error ++ "(uploading)"), ?_, fun h => by cases h⟩
      simp only [UploadSlaveByFilename, hc]
    | none =>
      refine ⟨e, ?_, fun _ => rfl⟩
      simp only [UploadSlaveByFilename, hc, hsplit]

/-- Witness of `identifier_rejected`: the decoder of `envDecoder` obeys the
contract and rejects `group1`, which has no second part; `DeleteFile("group1")`
returns the decoder error and does nothing else. -/
theorem identifier_rejected_witness :
    DecoderContract envDecoder.splitRemoteFileId ∧
    ((envDecoder.splitRemoteFileId "group1").2 ≠ none ∨
      (envDecoder.splitRemoteFileId "group1").1.length ≠ 2) ∧
    DeleteFile envDecoder freshClient "group1" world0 = Run.ret (some errIdentifier) world0 :=
  have hc : DecoderContract envDecoder.splitRemoteFileId := by
    intro fileId hlen
    by_cases h : fileId = "group1:file1"
    · simp [envDecoder, h] at hlen
    · simp [envDecoder, h]
  have hb : (envDecoder.splitRemoteFileId "group1").2 ≠ none ∨
      (envDecoder.splitRemoteFileId "group1").1.length ≠ 2 := Or.inl (by decide)
  ⟨hc, hb,
    (identifier_rejected envDecoder freshClient world0 [] "a.txt" "out.bin" "group1" "thumb"
      "txt" 0 0 hc hb).elim fun e h =>
        have he : some errIdentifier = some e := h.1
        by
          cases he
          exact h.2.2.2.1⟩

/-- With an empty slot `getStoragePool` is `NewConnectionPool` on the one
address: every call creates a pool of its own. -/
theorem getStoragePool_slot_empty {U D : Type} (env : Env U D) (this : FdfsClient)
    (ipAddr : String) (port : Int) (w : World) (h : this.storagePool = none) :
    getStoragePool env this ipAddr port w = NewConnectionPool env [ipAddr] port 10 150 w := by
  simp only [getStoragePool, h]

/-- With an empty slot, an answering tracker and a failing pool creation,
`UploadByBuffer` still dispatches the upload, with a nil pool, and returns the
answer of the storage client. -/
theorem UploadByBuffer_pool_error {U D : Type} (env : Env U D) (this : FdfsClient)
    (filebuffer : List Nat) (fileExtName : String) (w : World) (storeServ : StorageServer)
    (e : GoError) (hslot : this.storagePool = none)
    (hquery : env.tracker w this.trackerPool TrackerQuery.StorWithoutGroup =
      Except.ok storeServ)
    (hdial : env.dial (w.log (Event.trackerQuery this.trackerPool
      TrackerQuery.StorWithoutGroup)) [storeServ.ipAddr] storeServ.port 10 150 = some e) :
    UploadByBuffer env this filebuffer fileExtName w =
      Run.ret
        (env.upload
          ((w.log (Event.trackerQuery this.trackerPool TrackerQuery.StorWithoutGroup)).log
            (Event.poolFailed [storeServ.ipAddr] storeServ.port 10 150))
          none storeServ (StorageOp.UploadByBuffer filebuffer fileExtName))
        (((w.log (Event.trackerQuery this.trackerPool TrackerQuery.StorWithoutGroup)).log
            (Event.poolFailed [storeServ.ipAddr] storeServ.port 10 150)).log
          (Event.storageOp none this.trackerPool storeServ
            (StorageOp.UploadByBuffer filebuffer fileExtName))) := by
  simp only [UploadByBuffer, TrackerClient.query, hquery, getStoragePool, hslot,
    NewConnectionPool, hdial, StorageClient.storageUpload]

/-- C1. On the client `NewFdfsClient` builds (empty storage slot), with pool
creation succeeding, two consecutive calls `getStoragePool("10.0.0.7", 23000)`
return two different pool instances: the second call creates a second pool,
because the first result was never stored in `this.storagePool`. -/
theorem getStoragePool_fresh_client_twice :
    NewFdfsClient envOk "client.conf" ⟨[], 0⟩ = Run.ret (some freshClient, none) world0 ∧
    getStoragePool envOk freshClient "10.0.0.7" 23000 world0 =
      Run.ret (some pool1, none) ⟨world0.events ++ [Event.poolCreated pool1], 2⟩ ∧
    getStoragePool envOk freshClient "10.0.0.7" 23000
        ⟨world0.events ++ [Event.poolCreated pool1], 2⟩ =
      Run.ret (some pool2, none)
        ⟨world0.events ++ [Event.poolCreated pool1, Event.poolCreated pool2], 3⟩ ∧
    pool1 ≠ pool2 :=
  ⟨rfl, rfl, rfl, by decide⟩

/-- C3. After `NewFdfsClient` and two `UploadByBuffer` calls, both resolved by
the tracker to `10.0.0.7:23000`, two storage pools created by the client are
open at once: none of them was stored in the slot and none was closed. -/
theorem two_uploads_two_open_pools :
    NewFdfsClient envOk "client.conf" ⟨[], 0⟩ = Run.ret (some freshClient, none) world0 ∧
    freshClient.liveStoragePools
      (UploadByBuffer envOk freshClient [] "txt"
        (UploadByBuffer envOk freshClient [] "txt" world0).world).world = [pool1, pool2] ∧
    pool1 ≠ pool2 :=
  ⟨rfl, by decide, by decide⟩

/-- C8. When pool creation fails with `errDial`, `getStoragePool` returns a nil
pool and `errDial`, and `UploadByBuffer` and `DeleteFile` go on: they dispatch
the storage operation with the nil pool and return what the storage client
returns, here a nil error; `errDial` is dropped. -/
theorem pool_creation_error_dropped :
    getStoragePool envDialDown freshClient "10.0.0.7" 23000 world0 =
      Run.ret (none, some errDial)
        ⟨world0.events ++ [Event.poolFailed ["10.0.0.7"] 23000 10 150], 1⟩ ∧
    UploadByBuffer envDialDown freshClient [] "txt" world0 =
      Run.ret (some (), none)
        ⟨world0.events ++
          [Event.trackerQuery (some trackerPool0) TrackerQuery.StorWithoutGroup,
           Event.poolFailed ["10.0.0.7"] 23000 10 150,
           Event.storageOp none (some trackerPool0) storeA (StorageOp.UploadByBuffer [] "txt")],
          1⟩ ∧
    DeleteFile envDialDown freshClient "group1:file1" world0 =
      Run.ret none
        ⟨world0.events ++
          [Event.trackerQuery (some trackerPool0) (TrackerQuery.Update "group1" "file1"),
           Event.poolFailed ["10.0.0.7"] 23000 10 150,
           Event.storageOp none (some trackerPool0) storeA (StorageOp.DeleteFile "file1")],
          1⟩ :=
  ⟨rfl, rfl, rfl⟩

/-! ## The tracker configuration -/

theorem trackerOfString_eq (raw : String) :
    trackerOfString raw =
      (some ⟨(Split raw.toList ',').flatMap entryHosts,
        (Atoi ((Split raw.toList ',').foldl entryPort "22122".toList)).1⟩, none) := by
  unfold trackerOfString
  simp only [foldl_trackerLoopBody, List.nil_append]

theorem Split_serverList (es : List ConfEntry) (h : ∀ e ∈ es, e.wellFormed = true) :
    Split (serverList es).toList ',' = if es = [] then [[]] else es.map ConfEntry.text := by
  cases es with
  | nil => rfl
  | cons e rest =>
    have hall : ∀ l ∈ e.text :: rest.map ConfEntry.text, ',' ∉ l := by
      intro l hl
      rcases List.mem_cons.mp hl with hl | hl
      · rw [hl]
        exact wellFormed_no_comma e (h e (by simp))
      · obtain ⟨x, hx, rfl⟩ := List.mem_map.mp hl
        exact wellFormed_no_comma x (h x (List.mem_cons_of_mem _ hx))
    simpa [serverList] using Split_intercalate ',' e.text (rest.map ConfEntry.text) hall

theorem Atoi_listed (es : List ConfEntry) (h : ∀ e ∈ es, e.wellFormed = true) :
    (Atoi (((es.filterMap ConfEntry.port).getLast?).getD "22122".toList)).1 = listedPort es := by
  unfold listedPort
  cases hl : (es.filterMap ConfEntry.port).getLast? with
  | none => decide
  | some p =>
    have hmem : p ∈ es.filterMap ConfEntry.port := List.mem_of_getLast?_eq_some hl
    obtain ⟨e, he, hp⟩ := List.mem_filterMap.mp hmem
    obtain ⟨_, _, _, _, hport⟩ := (wellFormed_iff e).mp (h e he)
    obtain ⟨hne, hdig, hv⟩ := hport p hp
    simp only [Option.getD_some]
    rw [Atoi_digits p hne hdig hv]

/-- C4. For every `tracker_server` value that is a comma-separated list of
well-formed entries (`host` or `host:port`, white space around the entry, the
port a non-empty string of decimal digits denoting a Go `int`),
`getTrackerConf` returns, with a nil error, the tracker whose `HostList` is the
non-empty hosts in their listed order and whose `Port` is the port of the last
entry that carries one, or 22122 when no entry carries one. -/
theorem getTrackerConf_wellFormed {U D : Type} (env : Env U D) (confPath : String)
    (w : World) (cf : ConfigFile) (es : List ConfEntry)
    (hread : env.Read confPath = Except.ok cf)
    (hraw : (cf.RawString "DEFAULT" "tracker_server").1 = serverList es)
    (hwf : ∀ e ∈ es, e.wellFormed = true) :
    getTrackerConf env confPath w =
      Run.ret (some ⟨listedHosts es, listedPort es⟩, none) w := by
  unfold getTrackerConf
  simp only [hread, hraw, trackerOfString_eq, Split_serverList es hwf]
  by_cases hnil : es = []
  · subst hnil
    rfl
  · simp only [hnil, if_false, flatMap_entryHosts es hwf, foldl_entryPort es hwf,
      Atoi_listed es hwf]

/-- Witness of `getTrackerConf_wellFormed`: `10.0.0.1:21000,10.0.0.2`
gives the host list `[10.0.0.1, 10.0.0.2]` and the port 21000. -/
theorem getTrackerConf_wellFormed_witness :
    (envConf "10.0.0.1:21000,10.0.0.2").Read "client.conf" =
      Except.ok (confWith "10.0.0.1:21000,10.0.0.2") ∧
    "10.0.0.1:21000,10.0.0.2" =
      serverList [⟨[], "10.0.0.1".toList, some "21000".toList, []⟩,
        ⟨[], "10.0.0.2".toList, none, []⟩] ∧
    getTrackerConf (envConf "10.0.0.1:21000,10.0.0.2") "client.conf" ⟨[], 0⟩ =
      Run.ret (some ⟨["10.0.0.1", "10.0.0.2"], 21000⟩, none) ⟨[], 0⟩ :=
  ⟨rfl, by decide,
    getTrackerConf_wellFormed (envConf "10.0.0.1:21000,10.0.0.2") "client.conf" ⟨[], 0⟩
      (confWith "10.0.0.1:21000,10.0.0.2")
      [⟨[], "10.0.0.1".toList, some "21000".toList, []⟩, ⟨[], "10.0.0.2".toList, none, []⟩]
      rfl (by decide) (by decide)⟩

theorem parseUintLoop_append (ds rest : List Char) (n : Nat)
    (hd : ∀ c ∈ ds, isDigit c = true)
    (hv : ds.foldl (fun n c => n * 10 + (c.toNat - 48)) n < 2 ^ 63) :
    parseUintLoop n (ds ++ rest) =
      parseUintLoop (ds.foldl (fun n c => n * 10 + (c.toNat - 48)) n) rest := by
  induction ds generalizing n with
  | nil => rfl
  | cons c cs ih =>
    have hc : isDigit c = true := hd c (by simp)
    have hcs : ∀ d ∈ cs, isDigit d = true := fun d hm => hd d (List.mem_cons_of_mem _ hm)
    rw [List.foldl_cons] at hv ⊢
    have hle := le_foldl_digits cs (n * 10 + (c.toNat - 48))
    have h1 : ¬ n ≥ maxUint64 / 10 + 1 := by
      simp only [maxUint64]
      omega
    have h2 : ¬ n * 10 + (c.toNat - 48) > maxUint64 := by
      simp only [maxUint64]
      omega
    rw [List.cons_append, parseUintLoop, if_pos hc]
    simp only [h1, h2, if_false]
    exact ih _ hcs hv

/-- A text in which a character that is not a decimal digit follows digits
denoting a Go `int` (possibly none; a leading sign is not such a character) is
rejected by `Atoi` with value 0 and a syntax error. -/
theorem Atoi_rejects (ds rest : List Char) (c : Char)
    (hd : ∀ x ∈ ds, isDigit x = true) (hv : decimalValue ds < 2 ^ 63)
    (hc : isDigit c = false) (hsign : ds = [] → c ≠ '+' ∧ c ≠ '-') :
    Atoi (ds ++ c :: rest) = (0, some NumError.ErrSyntax) := by
  have hloop := parseUintLoop_append ds (c :: rest) 0 hd hv
  have hbad : ∀ n, parseUintLoop n (c :: rest) = (0, some NumError.ErrSyntax) := by
    intro n
    rw [parseUintLoop]
    simp [hc]
  rw [hbad] at hloop
  cases ds with
  | nil =>
    obtain ⟨hplus, hminus⟩ := hsign rfl
    unfold Atoi ParseInt
    simp only [List.nil_append, hplus, hminus, or_self, if_false, ParseUint]
    rw [List.nil_append] at hloop
    rw [hloop]
  | cons d ds1 =>
    have hdd : isDigit d = true := hd d (by simp)
    have hplus : d ≠ '+' := by
      intro h
      subst h
      revert hdd
      decide
    have hminus : d ≠ '-' := by
      intro h
      subst h
      revert hdd
      decide
    unfold Atoi ParseInt
    simp only [List.cons_append, hplus, hminus, or_self, if_false, ParseUint]
    rw [List.cons_append] at hloop
    rw [hloop]

/-- Whenever `Atoi` reports a syntax error its value is 0. -/
theorem Atoi_syntax_zero (s : List Char) (h : (Atoi s).2 = some NumError.ErrSyntax) :
    (Atoi s).1 = 0 := by
  unfold Atoi ParseInt at h ⊢
  cases s with
  | nil => rfl
  | cons c cs =>
    simp only at h ⊢
    split
    · rfl
    · rename_i un err hne heq
      rw [heq] at h
      simp only at h
      split at h
      · simp at h
      · split at h <;> simp at h

theorem foldl_entryPort_skip (post : List (List Char)) (port : List Char)
    (h : ∀ x ∈ post, (Split (TrimSpace x) ':').length ≠ 2) :
    post.foldl entryPort port = port := by
  induction post generalizing port with
  | nil => rfl
  | cons x rest ih =>
    have hx := h x (by simp)
    have hrest : ∀ y ∈ rest, (Split (TrimSpace y) ':').length ≠ 2 :=
      fun y hy => h y (List.mem_cons_of_mem _ hy)
    rw [List.foldl_cons, ih _ hrest]
    simp [entryPort, hx]

theorem length_Split (s : List Char) (sep : Char) :
    (Split s sep).length = s.count sep + 1 := by
  induction s with
  | nil => rfl
  | cons c cs ih =>
    unfold Split
    by_cases hc : c = sep
    · subst hc
      simp [ih]
    · have hne : ¬ (c == sep) = true := by simpa using hc
      rw [if_neg hc, List.count_cons, if_neg hne]
      cases hs : Split cs sep with
      | nil => exact absurd hs (Split_ne_nil cs sep)
      | cons p ps =>
        rw [hs] at ih
        simpa using ih

theorem count_colon_dropWhile (s : List Char) :
    (s.dropWhile isSpace).count ':' = s.count ':' := by
  induction s with
  | nil => rfl
  | cons c cs ih =>
    by_cases hc : isSpace c = true
    · have hne : ¬ (c == ':') = true := by
        intro h
        have : c = ':' := by simpa using h
        subst this
        revert hc
        decide
      rw [List.dropWhile_cons_of_pos hc, ih, List.count_cons, if_neg hne, Nat.add_zero]
    · rw [List.dropWhile_cons_of_neg hc]

theorem count_colon_TrimSpace (s : List Char) : (TrimSpace s).count ':' = s.count ':' := by
  unfold TrimSpace
  rw [List.count_reverse, count_colon_dropWhile, List.count_reverse, count_colon_dropWhile]

/-- C10. Once the configuration source is read, `getTrackerConf` returns a
tracker and a nil error for every `tracker_server` value, however malformed:
the hosts are the non-empty first colon-separated parts of the trimmed entries
and the port is the value `strconv.Atoi` gives for the current port text, its
error discarded. So (1) when the last entry with exactly two parts has a port
text that `Atoi` rejects with a syntax error (as it does `abc`), the port is 0
and the error is nil; (2) an entry with more than one colon adds its first
colon-separated part as host, unless that part is empty, and leaves the port
text unchanged; (3) an empty `tracker_server` value, as `RawString` gives for
an absent key, yields no host and port 22122. -/
theorem getTrackerConf_nil_error {U D : Type} (env : Env U D) (confPath : String)
    (w : World) (cf : ConfigFile) (hread : env.Read confPath = Except.ok cf) :
    getTrackerConf env confPath w =
      Run.ret (some ⟨(Split (cf.RawString "DEFAULT" "tracker_server").1.toList ',').flatMap
          entryHosts,
        (Atoi ((Split (cf.RawString "DEFAULT" "tracker_server").1.toList ',').foldl
          entryPort "22122".toList)).1⟩, none) w ∧
    (∀ pre post e host portText,
      Split (cf.RawString "DEFAULT" "tracker_server").1.toList ',' = pre ++ e :: post →
      Split (TrimSpace e) ':' = [host, portText] →
      (∀ x ∈ post, (Split (TrimSpace x) ':').length ≠ 2) →
      (Atoi portText).2 = some NumError.ErrSyntax →
      getTrackerConf env confPath w =
        Run.ret (some ⟨(Split (cf.RawString "DEFAULT" "tracker_server").1.toList ',').flatMap
          entryHosts, 0⟩, none) w) ∧
    (∀ st tr, 1 < tr.count ':' →
      trackerLoopBody st tr =
        (if (Split (TrimSpace tr) ':').headD [] ≠ []
          then st.1 ++ [String.mk ((Split (TrimSpace tr) ':').headD [])] else st.1, st.2)) ∧
    ((cf.RawString "DEFAULT" "tracker_server").1 = "" →
      getTrackerConf env confPath w = Run.ret (some ⟨[], 22122⟩, none) w) := by
  have hmain : getTrackerConf env confPath w =
      Run.ret (some ⟨(Split (cf.RawString "DEFAULT" "tracker_server").1.toList ',').flatMap
          entryHosts,
        (Atoi ((Split (cf.RawString "DEFAULT" "tracker_server").1.toList ',').foldl
          entryPort "22122".toList)).1⟩, none) w := by
    unfold getTrackerConf
    simp only [hread, trackerOfString_eq]
  refine ⟨hmain, ?_, ?_, ?_⟩
  · intro pre post e host portText hsplit hparts hpost hsyntax
    rw [hmain, hsplit, List.foldl_append, List.foldl_cons, foldl_entryPort_skip post _ hpost]
    have hport : entryPort (List.foldl entryPort "22122".toList pre) e = portText := by
      simp [entryPort, hparts]
    rw [hport, Atoi_syntax_zero portText hsyntax]
  · intro st tr hcount
    have hlen : (Split (TrimSpace tr) ':').length ≠ 2 := by
      rw [length_Split, count_colon_TrimSpace]
      omega
    unfold trackerLoopBody
    simp only [hlen, if_false]
  · intro hempty
    rw [hmain, hempty]
    rfl

/-- Witness of `getTrackerConf_nil_error`: `tracker_server = 10.0.0.1:abc`
yields the host `10.0.0.1`, port 0 and a nil error; an empty value yields no
host and port 22122. -/
theorem getTrackerConf_nil_error_witness :
    (envConf "10.0.0.1:abc").Read "client.conf" = Except.ok (confWith "10.0.0.1:abc") ∧
    Split "10.0.0.1:abc".toList ',' = [] ++ "10.0.0.1:abc".toList :: [] ∧
    Split (TrimSpace "10.0.0.1:abc".toList) ':' = ["10.0.0.1".toList, "abc".toList] ∧
    (Atoi "abc".toList).2 = some NumError.ErrSyntax ∧
    getTrackerConf (envConf "10.0.0.1:abc") "client.conf" ⟨[], 0⟩ =
      Run.ret (some ⟨["10.0.0.1"], 0⟩, none) ⟨[], 0⟩ ∧
    getTrackerConf (envConf "") "client.conf" ⟨[], 0⟩ =
      Run.ret (some ⟨[], 22122⟩, none) ⟨[], 0⟩ :=
  ⟨rfl, by decide, by decide, by decide,
    (getTrackerConf_nil_error (envConf "10.0.0.1:abc") "client.conf" ⟨[], 0⟩
      (confWith "10.0.0.1:abc") rfl).2.1 [] [] "10.0.0.1:abc".toList "10.0.0.1".toList
      "abc".toList (by decide) (by decide) (by simp) (by decide),
    (getTrackerConf_nil_error (envConf "") "client.conf" ⟨[], 0⟩
      (confWith "") rfl).2.2.2 rfl⟩

/-- Counterexample to the claim that every non-decimal port yields port 0:
the port texts `99999999999999999999x` and `-5` are not strings of decimal
digits, yet `tracker_server = 10.0.0.1:99999999999999999999x` yields the port
9223372036854775807 (the digits overflow before the `x` is read) and
`tracker_server = 10.0.0.1:-5` yields the port -5, both with a nil error. -/
theorem nonDecimal_port_not_zero :
    "99999999999999999999x".toList.all isDigit = false ∧
    getTrackerConf (envConf "10.0.0.1:99999999999999999999x") "client.conf" ⟨[], 0⟩ =
      Run.ret (some ⟨["10.0.0.1"], 9223372036854775807⟩, none) ⟨[], 0⟩ ∧
    "-5".toList.all isDigit = false ∧
    getTrackerConf (envConf "10.0.0.1:-5") "client.conf" ⟨[], 0⟩ =
      Run.ret (some ⟨["10.0.0.1"], -5⟩, none) ⟨[], 0⟩ ∧
    (9223372036854775807 : Int) ≠ 0 ∧ (-5 : Int) ≠ 0 :=
  ⟨by decide, rfl, by decide, rfl, by decide, by decide⟩

end Fdfs
